import Mathlib

/-
Verification of the orchestration core in `pixiv_pixie/queen.py`:
the `FunctionCall` diagnostic wrapper and the retrying
fetch-and-download pipeline of `PixieQueen.fetch_and_download`.

The embedding is shallow.  Python values that appear as download
keyword arguments are modelled by `DVal`; Python dicts by ordered
association lists with Python's insert-or-overwrite assignment.
Exceptions are modelled by an abstract error type `ε`: a Python
callable that may raise is a function into `Except ε`.

The `QuerySet` operations (`order_by`, `limit`, `filter`, `exclude`,
`enumerate`) and `utils.safe_callback` are not part of the repository
snapshot under verification; they are modelled from the spec where
noted in the corresponding doc comments.
-/

set_option autoImplicit false

namespace PixivPixie

variable {α β ε : Type}

/-- Embeds `FunctionCall` of queen.py.  The callable itself is opaque;
`name` is the string computed from it on line 16-19 of queen.py
(`fn.__name__` when present, else `repr(fn)`); `argReprs` are the
`repr` strings of the positional arguments and `kwargReprs` the
keyword names paired with the `repr` strings of their values. -/
structure FunctionCall where
  name : String
  argReprs : List String
  kwargReprs : List (String × String)
  deriving DecidableEq, Repr

/-- Embeds `FunctionCall.__str__` (queen.py lines 15-36): join the
positional-argument reprs with a comma-space, join the keyword parts
rendered `k=v` likewise, combine them as Python's truthiness branches
do, and wrap in `name(...)`. -/
def FunctionCall.str (fc : FunctionCall) : String :=
  let args_str := String.intercalate ", " fc.argReprs
  let kwargs_str := String.intercalate ", " (fc.kwargReprs.map (fun kv => kv.1 ++ "=" ++ kv.2))
  let parameter_str :=
    if args_str ≠ "" ∧ kwargs_str ≠ "" then args_str ++ ", " ++ kwargs_str
    else if args_str ≠ "" then args_str
    else if kwargs_str ≠ "" then kwargs_str
    else ""
  fc.name ++ "(" ++ parameter_str ++ ")"

/-- A Python value that can sit in the download keyword-argument dict:
`pyNone` is Python's `None`; `illust` a fetched item; `namingOrder o`
the dict assigned on queen.py lines 164-166 (a naming-info dict whose
single key `order` holds `o`); `custom` any other caller value. -/
inductive DVal (α β : Type) where
  | pyNone
  | illust (x : α)
  | namingOrder (order : Nat)
  | custom (v : β)
  deriving DecidableEq, Repr

/-- A Python dict with string keys, as an insertion-ordered
association list without duplicate keys. -/
abbrev PyDict (α β : Type) := List (String × DVal α β)

/-- `d.get(k)`: first value stored under `k`, if any. -/
def dictGet : PyDict α β → String → Option (DVal α β)
  | [], _ => none
  | (k', v) :: rest, k => if k' = k then some v else dictGet rest k

/-- `d[k] = v`: overwrite the value under `k` in place, or append the
new pair, as Python dict assignment does. -/
def dictSet : PyDict α β → String → DVal α β → PyDict α β
  | [], k, v => [(k, v)]
  | (k', v') :: rest, k, v =>
    if k' = k then (k, v) :: rest else (k', v') :: dictSet rest k v

/-- Embeds the per-item parameter construction of queen.py lines
160-166: copy the caller's download kwargs (the copy is implicit in
this functional embedding: the caller's dict is never changed), set
`illust`, and set `addition_naming_info` to the naming dict holding
`order` exactly when `kwargs_copy.get('addition_naming_info') is None`
(key absent or explicitly `None`). -/
def buildParams (dk : PyDict α β) (order : Nat) (x : α) : PyDict α β :=
  let c := dictSet dk "illust" (DVal.illust x)
  match dictGet c "addition_naming_info" with
  | none => dictSet c "addition_naming_info" (DVal.namingOrder order)
  | some DVal.pyNone => dictSet c "addition_naming_info" (DVal.namingOrder order)
  | some _ => c

/-- Modelled from the spec: `QueryPipeline.filter(predicate)` keeps the
items for which the predicate holds, evaluating the opaque predicate
capability on the items in order; the predicate may raise, and the
first failure propagates.  (The QuerySet class is not in the
repository snapshot; only queen.py calls it.) -/
def filterE (p : α → Except ε Bool) : List α → Except ε (List α)
  | [] => Except.ok []
  | x :: xs =>
    match p x with
    | Except.error e => Except.error e
    | Except.ok b =>
      match filterE p xs with
      | Except.error e => Except.error e
      | Except.ok rest => Except.ok (if b then x :: rest else rest)

/-- Modelled from the spec: `QueryPipeline.exclude(predicate)` keeps
the items for which the predicate does not hold; the predicate may
raise, and the first failure propagates. -/
def excludeE (p : α → Except ε Bool) : List α → Except ε (List α)
  | [] => Except.ok []
  | x :: xs =>
    match p x with
    | Except.error e => Except.error e
    | Except.ok b =>
      match excludeE p xs with
      | Except.error e => Except.error e
      | Except.ok rest => Except.ok (if b then rest else x :: rest)

/-- Modelled from the spec: `QueryPipeline.limit(n)` keeps at most the
first `n` items of the current view. -/
def qsLimit (n : Nat) (xs : List α) : List α := xs.take n

/-- Modelled from the spec: `QueryPipeline.enumerate(start)` pairs each
item of the current view with its index, starting at `start`. -/
def qsEnumerate (start : Nat) (xs : List α) : List (Nat × α) :=
  List.enumFrom start xs

/-- The configuration of one `fetch_and_download` invocation
(queen.py lines 88-103).  `order_by` models the external
`QuerySet.order_by(*order_by)` call as an opaque, possibly raising
view transformation with the caller's opaque sort keys already
applied (the spec treats key/predicate expressions as opaque
capabilities); `filter_q` and `exclude_q` are the opaque, possibly
raising predicate capabilities; `max_tries` is the retry bound
(`max_tries=None` is not modelled: no claim involves the unbounded
loop). -/
structure FadConfig (α β ε : Type) where
  max_tries : Nat
  order_by : Option (List α → Except ε (List α))
  limit_before : Option Nat
  filter_q : Option (α → Except ε Bool)
  exclude_q : Option (α → Except ε Bool)
  limit_after : Option Nat
  download_kwargs : PyDict α β
  submit_download_callback : Option (Nat → PyDict α β → Except ε Unit)

/-- The external world one invocation runs against.  `fetchCall` is
the `FunctionCall(fetch_func, *args, **kwargs)` built on queen.py line
136, as diagnostic data; `fetch n` is the outcome of the n-th (1-based)
invocation of that call; `submit n` tells whether the n-th download
submission of this invocation raises (e.g. a rejected executor
submission). -/
structure FadWorld (α ε : Type) where
  fetchCall : FunctionCall
  fetch : Nat → Except ε (List α)
  submit : Nat → Except ε Unit

/-- Modelled from the spec: `utils.safe_callback` wraps the
submission-observer callback, isolating and logging any failure the
observer raises so that it never propagates (`utils.py` is not in the
repository snapshot). -/
def safe_callback (cb : Nat → PyDict α β → Except ε Unit) :
    Nat → PyDict α β → Unit :=
  fun fut params =>
    match cb fut params with
    | Except.error _ => ()
    | Except.ok _ => ()

/-- The observable state accumulated by one `fetch_and_download`
invocation: `submits` logs the parameter dict of every download
submission in order (so `submits.length` counts submitted download
jobs), and `futures` is the list bound on queen.py line 138 — created
once, before the retry loop — holding the `(illust, future)` pairs.
A future is identified by the 1-based index of the submission that
created it. -/
structure RunState (α β : Type) where
  submits : List (PyDict α β)
  futures : List (α × Nat)
  deriving DecidableEq, Repr

/-- Embeds the download fan-out loop of queen.py lines 159-170: for
each enumerated `(order, illust)` pair build the parameters, submit
the download (which may raise), append `(illust, future)`, and invoke
the safe-wrapped observer callback (whose outcome is discarded).
Returns the first failure, if any, together with the state reached. -/
def submitLoop (w : FadWorld α ε) (cfg : FadConfig α β ε) :
    List (Nat × α) → RunState α β → Option ε × RunState α β
  | [], st => (none, st)
  | (order, x) :: rest, st =>
    let params := buildParams cfg.download_kwargs order x
    let submits2 := st.submits ++ [params]
    let fut := submits2.length
    match w.submit fut with
    | Except.error e => (some e, ⟨submits2, st.futures⟩)
    | Except.ok _ =>
      let st2 : RunState α β := ⟨submits2, st.futures ++ [(x, fut)]⟩
      let cbRun := match cfg.submit_download_callback with
        | none => ()
        | some cb => safe_callback cb fut params
      let _ := cbRun
      submitLoop w cfg rest st2

/-- Embeds the pipeline-stage chain of queen.py lines 144-157, in the
source's fixed order: order_by, limit(before), filter, exclude,
limit(after); each configured stage applies only when its argument
`is not None`, and a raising stage aborts the attempt. -/
def runPipeline (cfg : FadConfig α β ε) (items : List α) : Except ε (List α) :=
  match (match cfg.order_by with
         | none => Except.ok items
         | some f => f items) with
  | Except.error e => Except.error e
  | Except.ok s1 =>
    let s2 := match cfg.limit_before with
      | none => s1
      | some n => qsLimit n s1
    match (match cfg.filter_q with
           | none => Except.ok s2
           | some p => filterE p s2) with
    | Except.error e => Except.error e
    | Except.ok s3 =>
      match (match cfg.exclude_q with
             | none => Except.ok s3
             | some p => excludeE p s3) with
      | Except.error e => Except.error e
      | Except.ok s4 =>
        Except.ok (match cfg.limit_after with
                   | none => s4
                   | some n => qsLimit n s4)

/-- One iteration of the retry loop's `try` block (queen.py lines
141-172): invoke the fetch call (its `tryIdx`-th invocation), run the
pipeline stages, then the download fan-out.  Any failure is the
caught exception of that attempt; the accumulated state survives
the failure. -/
def attempt (w : FadWorld α ε) (cfg : FadConfig α β ε) (tryIdx : Nat)
    (st : RunState α β) : Option ε × RunState α β :=
  match w.fetch tryIdx with
  | Except.error e => (some e, st)
  | Except.ok items =>
    match runPipeline cfg items with
    | Except.error e => (some e, st)
    | Except.ok qs => submitLoop w cfg (qsEnumerate 1 qs) st

/-- A raised Python exception as it leaves `fetch_and_download`: the
original exception value with the originating fetch `FunctionCall`
attached as the `fetch_call` attribute (queen.py lines 176-178). -/
structure RaisedError (ε : Type) where
  err : ε
  fetch_call : FunctionCall
  deriving DecidableEq, Repr

/-- Embeds the retry loop of queen.py lines 140-178.  `triesDone`
attempts are already behind us (so the next attempt is number
`triesDone + 1`) and `remaining` further attempts are allowed after
the current one (`remaining = max_tries - tries` for the Python
counter `tries`).  On success the attempt number — which equals the
number of fetch invocations — and the state are returned; on
exhaustion the caught exception is re-raised with the fetch call
attached. -/
def fadLoop (w : FadWorld α ε) (cfg : FadConfig α β ε) :
    Nat → Nat → RunState α β → Except (RaisedError ε) (Nat × RunState α β)
  | t, 0, st =>
    match attempt w cfg (t + 1) st with
    | (none, st2) => Except.ok (t + 1, st2)
    | (some e, _) => Except.error ⟨e, w.fetchCall⟩
  | t, r + 1, st =>
    match attempt w cfg (t + 1) st with
    | (none, st2) => Except.ok (t + 1, st2)
    | (some _, st2) => fadLoop w cfg (t + 1) r st2

/-- `PixieQueen.fetch_and_download` with its observable bookkeeping:
the number of fetch invocations, the submission log and the futures
list.  The loop starts before any attempt with the empty state of
queen.py line 138 and allows `max_tries - 1` retries after the first
attempt (Python retries while `tries < max_tries`). -/
def fetch_and_download_run (w : FadWorld α ε) (cfg : FadConfig α β ε) :
    Except (RaisedError ε) (Nat × RunState α β) :=
  fadLoop w cfg 0 (cfg.max_tries - 1) ⟨[], []⟩

/-- The value `fetch_and_download` actually returns on success: the
accumulated list of `(illust, future)` pairs (queen.py line 172). -/
def fetch_and_download (w : FadWorld α ε) (cfg : FadConfig α β ε) :
    Except (RaisedError ε) (List (α × Nat)) :=
  Except.map (fun res => res.2.futures) (fetch_and_download_run w cfg)

/-- Lifts a pure Boolean predicate to a never-raising predicate
capability. -/
def liftQ (p : α → Bool) : α → Except ε Bool :=
  fun x => Except.ok (p x)

/-- A configuration whose pipeline stages are pure (never raise):
an ordering that always succeeds, and predicates lifted from Boolean
functions. -/
def mkConfig (m : Nat) (ob : Option (List α → List α)) (lb : Option Nat)
    (p q : Option (α → Bool)) (la : Option Nat) (dk : PyDict α β)
    (cb : Option (Nat → PyDict α β → Except ε Unit)) : FadConfig α β ε :=
  ⟨m, ob.map (fun f => fun xs => Except.ok (f xs)), lb,
   p.map liftQ, q.map liftQ, la, dk, cb⟩

/-- The pipeline of queen.py lines 144-157 on pure stages, as a pure
list function. -/
def purePipeline (ob : Option (List α → List α)) (lb : Option Nat)
    (p q : Option (α → Bool)) (la : Option Nat) (items : List α) : List α :=
  let s1 := match ob with
    | none => items
    | some f => f items
  let s2 := match lb with
    | none => s1
    | some n => qsLimit n s1
  let s3 := match p with
    | none => s2
    | some pp => s2.filter pp
  let s4 := match q with
    | none => s3
    | some qq => s3.filter (fun x => !(qq x))
  match la with
  | none => s4
  | some n => qsLimit n s4

/-- The futures appended by a fan-out over `pairs` when every
submission succeeds and `base` submissions happened before: the j-th
pair's item gets the future created by submission `base + j`. -/
def newFutures (base : Nat) : List (Nat × α) → List (α × Nat)
  | [] => []
  | (_, x) :: rest => (x, base + 1) :: newFutures (base + 1) rest

/-- The state a single fully successful attempt builds from the empty
state when the pipeline yields `items`: one submission per enumerated
item, with parameters built from the caller's original kwargs. -/
def fadExpected (dk : PyDict α β) (items : List α) : RunState α β :=
  ⟨(qsEnumerate 1 items).map (fun oi => buildParams dk oi.1 oi.2),
   newFutures 0 (qsEnumerate 1 items)⟩

instance {γ δ : Type} [DecidableEq γ] [DecidableEq δ] : DecidableEq (Except γ δ) :=
  fun a b =>
    match a, b with
    | Except.error x, Except.error y =>
      if h : x = y then Decidable.isTrue (by rw [h])
      else Decidable.isFalse (fun hc => by cases hc; exact h rfl)
    | Except.error _, Except.ok _ => Decidable.isFalse (fun hc => by cases hc)
    | Except.ok _, Except.error _ => Decidable.isFalse (fun hc => by cases hc)
    | Except.ok x, Except.ok y =>
      if h : x = y then Decidable.isTrue (by rw [h])
      else Decidable.isFalse (fun hc => by cases hc; exact h rfl)

/-- Concrete world for the filter/exclude interaction: one fetch that
yields the items 0 and 1, downloads always accepted. -/
def wC1 : FadWorld Nat Unit :=
  ⟨⟨"fetch_things", ["1"], []⟩, fun _ => Except.ok [0, 1], fun _ => Except.ok ()⟩

/-- Run with a filter that keeps everything and an exclude that
selects exactly the item 1, both configured. -/
def cfgC1both : FadConfig Nat Unit Unit :=
  mkConfig 1 none none (some (fun _ => true)) (some (fun x => x == 1)) none [] none

/-- The same run with the filter alone. -/
def cfgC1filter : FadConfig Nat Unit Unit :=
  mkConfig 1 none none (some (fun _ => true)) none none [] none

/-- Concrete world for the limit/exclude/limit scenario: one fetch
yielding the five items 0..4 (standing for A..E). -/
def wC5 : FadWorld Nat Unit :=
  ⟨⟨"fetch_things", [], []⟩, fun _ => Except.ok [0, 1, 2, 3, 4], fun _ => Except.ok ()⟩

/-- Concrete world for the retry count: the fetch fails on its first
two invocations and yields the single item 7 on the third. -/
def wC2 : FadWorld Nat Unit :=
  ⟨⟨"fetch_user", ["42"], []⟩,
   fun n => if n ≤ 2 then Except.error () else Except.ok [7],
   fun _ => Except.ok ()⟩

/-- Bare configuration with retry bound 3 = k + 1. -/
def cfgC2a : FadConfig Nat Unit Unit :=
  mkConfig 3 none none none none none [] none

/-- Bare configuration with retry bound 2 = k. -/
def cfgC2b : FadConfig Nat Unit Unit :=
  mkConfig 2 none none none none none [] none

/-- Concrete world for retry exhaustion: the fetch fails on every
invocation, the i-th failure carrying the value i. -/
def wC3 : FadWorld Nat Nat :=
  ⟨⟨"fetch_user_illusts", ["123"], []⟩,
   fun i => Except.error i, fun _ => Except.ok ()⟩

/-- Bare configuration with retry bound 3 over the error type Nat. -/
def cfgC3 : FadConfig Nat Unit Nat :=
  mkConfig 3 none none none none none [] none

/-- Concrete world for the fan-out count: one fetch yielding the
items 5, 6, 7. -/
def wC4 : FadWorld Nat Unit :=
  ⟨⟨"fetch_ranking", [], []⟩, fun _ => Except.ok [5, 6, 7], fun _ => Except.ok ()⟩

/-- Filter keeping the items at least 6. -/
def pC4 : Nat → Bool := fun x => decide (6 ≤ x)

/-- Configuration applying that filter. -/
def cfgC4 : FadConfig Nat Unit Unit :=
  mkConfig 5 none none (some pC4) none none [] none

/-- Concrete world for the parameter construction, with custom
caller values available. -/
def wC6 : FadWorld Nat Nat :=
  ⟨⟨"fetch_bookmarks", [], []⟩, fun _ => Except.ok [11, 12], fun _ => Except.ok ()⟩

/-- A caller-supplied download kwargs dict holding one unrelated
key. -/
def dkC6 : PyDict Nat Nat := [("quality", DVal.custom 9)]

/-- Concrete world for the raising observer callback. -/
def wC8 : FadWorld Nat Nat :=
  ⟨⟨"fetch_feed", [], []⟩, fun _ => Except.ok [1, 2, 3], fun _ => Except.ok ()⟩

/-- An observer callback that raises on every invocation. -/
def cbC8 : Nat → PyDict Nat Nat → Except Nat Unit :=
  fun _ _ => Except.error 99

/-- Concrete world for the accumulator persistence: the fetch always
yields the items 10 and 20, and the second download submission
overall raises. -/
def wC9 : FadWorld Nat Unit :=
  ⟨⟨"fetch_tag", [], []⟩, fun _ => Except.ok [10, 20],
   fun n => if n == 2 then Except.error () else Except.ok ()⟩

/-- Bare configuration with retry bound 2 for the accumulator
scenario. -/
def cfgC9 : FadConfig Nat Unit Unit :=
  mkConfig 2 none none none none none [] none

/-- The state after the first, failed attempt of the accumulator
scenario: both submissions logged, but only the first pair
appended. -/
def st1C9 : RunState Nat Unit :=
  ⟨[[("illust", DVal.illust 10), ("addition_naming_info", DVal.namingOrder 1)],
    [("illust", DVal.illust 20), ("addition_naming_info", DVal.namingOrder 2)]],
   [(10, 1)]⟩

/-- The final state of the accumulator scenario: the pair appended by
the failed attempt survives in front of the successful attempt's
pairs. -/
def stFC9 : RunState Nat Unit :=
  ⟨[[("illust", DVal.illust 10), ("addition_naming_info", DVal.namingOrder 1)],
    [("illust", DVal.illust 20), ("addition_naming_info", DVal.namingOrder 2)],
    [("illust", DVal.illust 10), ("addition_naming_info", DVal.namingOrder 1)],
    [("illust", DVal.illust 20), ("addition_naming_info", DVal.namingOrder 2)]],
   [(10, 1), (10, 3), (20, 4)]⟩

/-- Concrete world for the catch-all retry: the fetch always succeeds
with the single item 5, so any failure comes from a later stage. -/
def wC10 : FadWorld Nat Nat :=
  ⟨⟨"fetch_new", [], []⟩, fun _ => Except.ok [5], fun _ => Except.ok ()⟩

/-- A configuration whose filter predicate raises the value 5 on
every item: the attempt fails in the pipeline, not in the fetch. -/
def cfgC10 : FadConfig Nat Unit Nat :=
  ⟨2, none, none, some (fun _ => Except.error 5), none, none, [], none⟩

/-- The exclude predicate of the scenario: selects exactly the item 2
(standing for C). -/
def qC5 : Nat → Bool := fun x => x == 2

/-- The scenario configuration: limit 3 before, exclude C, limit 2
after. -/
def cfgC5 : FadConfig Nat Unit Unit :=
  mkConfig 5 none (some 3) none (some qC5) (some 2) [] none

end PixivPixie

namespace PixivPixie

variable {α β ε : Type}

/-- Reading a key just written into a dict yields the written value. -/
theorem dictGet_dictSet_same (d : PyDict α β) (k : String) (v : DVal α β) :
    dictGet (dictSet d k v) k = some v := by
  induction d with
  | nil => simp [dictSet, dictGet]
  | cons kv rest ih =>
    by_cases h : kv.1 = k
    · simp [dictSet, dictGet, h]
    · simp [dictSet, dictGet, h, ih]

/-- Writing one key leaves every other key unchanged. -/
theorem dictGet_dictSet_other (d : PyDict α β) (k k' : String) (v : DVal α β)
    (h : k' ≠ k) : dictGet (dictSet d k v) k' = dictGet d k' := by
  have hne : ¬k = k' := fun hc => h hc.symm
  induction d with
  | nil => simp [dictSet, dictGet, hne]
  | cons kv rest ih =>
    by_cases hk : kv.1 = k
    · simp [dictSet, dictGet, hk, hne]
    · simp only [dictSet, hk, if_false, dictGet]
      by_cases hk' : kv.1 = k' <;> simp [hk', ih]

/-- A nonempty string has positive length. -/
theorem String.length_pos_of_ne_empty {s : String} (h : s ≠ "") : 0 < s.length := by
  cases s with
  | mk data =>
    cases data with
    | nil => exact absurd rfl h
    | cons c cs => simp [String.length]

/-- The worker of `String.intercalate` only ever appends to its
accumulator. -/
theorem strGo_length_le (s : String) :
    ∀ (l : List String) (acc : String),
      acc.length ≤ (String.intercalate.go acc s l).length
  | [], _ => Nat.le_refl _
  | a :: as, acc => by
    refine Nat.le_trans ?_ (strGo_length_le s as (acc ++ s ++ a))
    simp [String.length_append]
    omega

/-- Joining a list whose head is nonempty yields a nonempty string. -/
theorem intercalate_ne_empty (s a : String) (l : List String) (h : a ≠ "") :
    String.intercalate s (a :: l) ≠ "" := by
  intro hc
  have h1 : 0 < a.length := String.length_pos_of_ne_empty h
  have h2 : a.length ≤ (String.intercalate s (a :: l)).length :=
    strGo_length_le s l a
  rw [hc] at h2
  simp [String.length_empty] at h2
  omega

/-- A prefix of the accumulator passes through the `String.intercalate`
worker unchanged. -/
theorem strGo_append (s x : String) :
    ∀ (l : List String) (y : String),
      String.intercalate.go (x ++ y) s l = x ++ String.intercalate.go y s l
  | [], _ => rfl
  | a :: as, y => by
    show String.intercalate.go (x ++ y ++ s ++ a) s as =
      x ++ String.intercalate.go (y ++ s ++ a) s as
    rw [String.append_assoc x y s, String.append_assoc x (y ++ s) a]
    exact strGo_append s x as (y ++ s ++ a)

/-- The `String.intercalate` worker processes an appended list in two
stages. -/
theorem strGo_list_append (s : String) :
    ∀ (l1 l2 : List String) (acc : String),
      String.intercalate.go acc s (l1 ++ l2) =
        String.intercalate.go (String.intercalate.go acc s l1) s l2
  | [], _, _ => rfl
  | a :: as, l2, acc => strGo_list_append s as l2 (acc ++ s ++ a)

/-- Joining the concatenation of two nonempty lists splits into the two
joins around one separator. -/
theorem intercalate_split (s a b : String) (A B : List String) :
    String.intercalate s ((a :: A) ++ (b :: B)) =
      String.intercalate s (a :: A) ++ s ++ String.intercalate s (b :: B) := by
  show String.intercalate.go a s (A ++ b :: B) =
    String.intercalate.go a s A ++ s ++ String.intercalate.go b s B
  rw [strGo_list_append s A (b :: B) a]
  show String.intercalate.go (String.intercalate.go a s A ++ s ++ b) s B =
    String.intercalate.go a s A ++ s ++ String.intercalate.go b s B
  exact strGo_append s (String.intercalate.go a s A ++ s) B b

/-- A rendered keyword part `k=v` is never the empty string. -/
theorem kwpart_ne_empty (k v : String) : k ++ "=" ++ v ≠ "" := by
  intro hc
  have hlen := congrArg String.length hc
  have h1 : ("=" : String).length = 1 := by decide
  simp [String.length_append, h1, String.length_empty] at hlen

/-- Claim C1 — code evaluation at the failing input.  Fetching the
items 0 and 1 with a filter that keeps everything and an exclude that
selects exactly item 1, both configured, drops item 1: the exclude
stage is applied even though `filter_q` is set, so the run with both
predicates differs from the run with the filter alone, contradicting
the claimed precedence (and the `exclude_q` docstring of
queen.py, which says exclude is used only if `filter_q` is not
defined). -/
theorem exclude_applied_even_when_filter_set :
    fetch_and_download wC1 cfgC1both = Except.ok [(0, 1)] ∧
    fetch_and_download wC1 cfgC1filter = Except.ok [(0, 1), (1, 2)] ∧
    fetch_and_download wC1 cfgC1both ≠ fetch_and_download wC1 cfgC1filter := by
  decide

/-- Claim C5: with a fetch yielding the items 0..4 (A..E), a limit of
3 before filtering, an exclude selecting exactly item 2 (C) and a
limit of 2 after filtering, the run selects exactly items 0 and 1
(A and B), enumerated from 1 and returned in that order — the stages
apply in the fixed order orderBy, limit(before), filter/exclude,
limit(after), enumerate(start=1). -/
theorem scenario_limit_exclude_limit :
    fetch_and_download wC5 cfgC5 = Except.ok [(0, 1), (1, 2)] ∧
    qsEnumerate 1 (purePipeline none (some 3) none (some qC5) (some 2)
      [0, 1, 2, 3, 4]) = [(1, 0), (2, 1)] := by
  decide

/-- Claim C7 — counterexample.  With no arguments at all,
`FunctionCall.__str__` renders `f()`: the parenthesized argument list
is NOT omitted, refuting the claim that it is omitted entirely. -/
theorem str_no_args_keeps_parentheses :
    FunctionCall.str ⟨"f", [], []⟩ = "f()" ∧
    FunctionCall.str ⟨"f", [], []⟩ ≠ "f" := by
  decide

/-- Claim C7 — amended.  `FunctionCall.__str__` renders
`name(arg1, arg2, key=value, ...)`: the repr strings of the positional
arguments first, then the keyword parts rendered `key=value`, all
joined with a comma and space — but when there are no arguments at all
the argument list between the parentheses is merely empty, rendering
`name()`; the parentheses are kept.  The hypothesis that each
positional repr string is nonempty always holds of Python `repr`
output. -/
theorem str_renders_name_and_joined_arguments (fc : FunctionCall)
    (ha : ∀ r ∈ fc.argReprs, r ≠ "") :
    fc.str = fc.name ++ "(" ++
      String.intercalate ", "
        (fc.argReprs ++ fc.kwargReprs.map (fun kv => kv.1 ++ "=" ++ kv.2)) ++
      ")" := by
  obtain ⟨nm, args, kwargs⟩ := fc
  cases args with
  | nil =>
    cases kwargs with
    | nil => rfl
    | cons kv K =>
      have hkw : String.intercalate.go (kv.1 ++ "=" ++ kv.2) ", "
          (K.map (fun p => p.1 ++ "=" ++ p.2)) ≠ "" :=
        intercalate_ne_empty ", " _ _ (kwpart_ne_empty kv.1 kv.2)
      simp [FunctionCall.str, String.intercalate, hkw]
  | cons a A =>
    have hargs : String.intercalate.go a ", " A ≠ "" :=
      intercalate_ne_empty ", " a A (ha a (by simp))
    cases kwargs with
    | nil =>
      simp [FunctionCall.str, String.intercalate, hargs]
    | cons kv K =>
      have hkw : String.intercalate.go (kv.1 ++ "=" ++ kv.2) ", "
          (K.map (fun p => p.1 ++ "=" ++ p.2)) ≠ "" :=
        intercalate_ne_empty ", " _ _ (kwpart_ne_empty kv.1 kv.2)
      have hsplit := intercalate_split ", " a (kv.1 ++ "=" ++ kv.2) A
        (K.map (fun p => p.1 ++ "=" ++ p.2))
      simp only [FunctionCall.str, List.map]
      rw [if_pos ⟨hargs, hkw⟩, hsplit]

/-- Filtering with a lifted (never-raising) predicate is plain list
filtering. -/
theorem filterE_liftQ (p : α → Bool) (xs : List α) :
    filterE (liftQ p) xs = (Except.ok (xs.filter p) : Except ε (List α)) := by
  induction xs with
  | nil => rfl
  | cons x xs ih =>
    simp [filterE, liftQ, ih, List.filter_cons]

/-- Excluding with a lifted (never-raising) predicate keeps exactly the
items on which it is false. -/
theorem excludeE_liftQ (p : α → Bool) (xs : List α) :
    excludeE (liftQ p) xs =
      (Except.ok (xs.filter (fun x => !(p x))) : Except ε (List α)) := by
  induction xs with
  | nil => rfl
  | cons x xs ih =>
    simp only [excludeE, liftQ, ih, List.filter_cons]
    cases p x <;> simp

/-- On a pure configuration the pipeline never raises and computes the
pure stage chain. -/
theorem runPipeline_mkConfig (m : Nat) (ob : Option (List α → List α))
    (lb : Option Nat) (p q : Option (α → Bool)) (la : Option Nat)
    (dk : PyDict α β) (cb : Option (Nat → PyDict α β → Except ε Unit))
    (items : List α) :
    runPipeline (mkConfig m ob lb p q la dk cb) items =
      Except.ok (purePipeline ob lb p q la items) := by
  cases ob <;> cases p <;> cases q <;>
    simp [runPipeline, mkConfig, purePipeline, filterE_liftQ, excludeE_liftQ]

/-- When every download submission is accepted, the fan-out loop
never fails, logs one submission per pair with parameters built from
the caller's original kwargs, and appends one future per pair. -/
theorem submitLoop_ok (w : FadWorld α ε) (cfg : FadConfig α β ε)
    (hsub : ∀ n, w.submit n = Except.ok ()) (pairs : List (Nat × α)) :
    ∀ st : RunState α β,
      submitLoop w cfg pairs st =
        (none,
         ⟨st.submits ++ pairs.map (fun oi => buildParams cfg.download_kwargs oi.1 oi.2),
          st.futures ++ newFutures st.submits.length pairs⟩) := by
  induction pairs with
  | nil => intro st; simp [submitLoop, newFutures]
  | cons hd rest ih =>
    intro st
    obtain ⟨o, x⟩ := hd
    simp only [submitLoop, hsub, ih, newFutures, List.map]
    simp [List.append_assoc, List.length_append, newFutures]

/-- An attempt whose fetch invocation fails leaves the state
unchanged and surfaces the fetch failure. -/
theorem attempt_fetch_error (w : FadWorld α ε) (cfg : FadConfig α β ε)
    {i : Nat} {e : ε} (h : w.fetch i = Except.error e) (st : RunState α β) :
    attempt w cfg i st = (some e, st) := by
  simp [attempt, h]

/-- Unfolding: a failed attempt with retries remaining continues the
loop on the state the failed attempt left behind. -/
theorem fadLoop_step_fail (w : FadWorld α ε) (cfg : FadConfig α β ε)
    {t : Nat} {e : ε} {st st2 : RunState α β}
    (h : attempt w cfg (t + 1) st = (some e, st2)) (r : Nat) :
    fadLoop w cfg t (r + 1) st = fadLoop w cfg (t + 1) r st2 := by
  simp [fadLoop, h]

/-- Unfolding: a failed attempt with no retries remaining re-raises
the caught exception with the fetch call attached. -/
theorem fadLoop_exhaust (w : FadWorld α ε) (cfg : FadConfig α β ε)
    {t : Nat} {e : ε} {st st2 : RunState α β}
    (h : attempt w cfg (t + 1) st = (some e, st2)) :
    fadLoop w cfg t 0 st = Except.error ⟨e, w.fetchCall⟩ := by
  simp [fadLoop, h]

/-- Unfolding: a successful attempt ends the loop at once, returning
the attempt number and the state it built. -/
theorem fadLoop_success (w : FadWorld α ε) (cfg : FadConfig α β ε)
    {t : Nat} {st st2 : RunState α β}
    (h : attempt w cfg (t + 1) st = (none, st2)) (r : Nat) :
    fadLoop w cfg t r st = Except.ok (t + 1, st2) := by
  cases r <;> simp [fadLoop, h]

/-- A block of j consecutive fetch failures unwinds the loop j steps
without touching the state. -/
theorem fadLoop_failMany (w : FadWorld α ε) (cfg : FadConfig α β ε) (e : ε) :
    ∀ (j t r : Nat) (st : RunState α β),
      (∀ i, t < i → i ≤ t + j → w.fetch i = Except.error e) →
      fadLoop w cfg t (j + r) st = fadLoop w cfg (t + j) r st
  | 0, t, r, st, _ => by simp
  | j + 1, t, r, st, h => by
    have hs : w.fetch (t + 1) = Except.error e := h (t + 1) (by omega) (by omega)
    have h1 : attempt w cfg (t + 1) st = (some e, st) :=
      attempt_fetch_error w cfg hs st
    have hj : j + 1 + r = (j + r) + 1 := by omega
    rw [hj, fadLoop_step_fail w cfg h1 (j + r)]
    have h2 := fadLoop_failMany w cfg e j (t + 1) r st
      (fun i hi1 hi2 => h i (by omega) (by omega))
    have ht : t + 1 + j = t + (j + 1) := by omega
    rw [ht] at h2
    exact h2

/-- When the fetch fails on every invocation the loop exhausts its
bound and raises the failure of its final attempt, with the fetch
call attached. -/
theorem fadLoop_allFail (w : FadWorld α ε) (cfg : FadConfig α β ε)
    (err : Nat → ε) (h : ∀ i, w.fetch i = Except.error (err i)) :
    ∀ (r t : Nat) (st : RunState α β),
      fadLoop w cfg t r st = Except.error ⟨err (t + r + 1), w.fetchCall⟩
  | 0, t, st =>
    fadLoop_exhaust w cfg (attempt_fetch_error w cfg (h (t + 1)) st)
  | r + 1, t, st => by
    rw [fadLoop_step_fail w cfg (attempt_fetch_error w cfg (h (t + 1)) st) r]
    have h2 := fadLoop_allFail w cfg err h r (t + 1) st
    have ht : t + 1 + r + 1 = t + (r + 1) + 1 := by omega
    rw [ht] at h2
    exact h2

/-- One future per fanned-out pair. -/
theorem newFutures_length :
    ∀ (l : List (Nat × α)) (base : Nat), (newFutures base l).length = l.length
  | [], _ => rfl
  | _ :: rest, base => congrArg Nat.succ (newFutures_length rest (base + 1))

/-- The items of the fanned-out futures are the enumerated items, in
order. -/
theorem newFutures_fst :
    ∀ (l : List (Nat × α)) (base : Nat),
      (newFutures base l).map Prod.fst = l.map Prod.snd
  | [], _ => rfl
  | _ :: rest, base => congrArg (List.cons _) (newFutures_fst rest (base + 1))

/-- The state a fully successful first attempt builds: counts and item
order of `fadExpected`. -/
theorem fadExpected_spec (dk : PyDict α β) (items : List α) :
    (fadExpected dk items).submits.length = items.length ∧
    (fadExpected dk items).futures.length = items.length ∧
    (fadExpected dk items).futures.map Prod.fst = items := by
  refine ⟨?_, ?_, ?_⟩
  · simp [fadExpected, qsEnumerate]
  · simp [fadExpected, newFutures_length, qsEnumerate]
  · simp [fadExpected, newFutures_fst, qsEnumerate, List.enumFrom_map_snd]

/-- The download kwargs of a pure configuration are the given dict. -/
theorem mkConfig_download_kwargs (m : Nat) (ob : Option (List α → List α))
    (lb : Option Nat) (p q : Option (α → Bool)) (la : Option Nat)
    (dk : PyDict α β) (cb : Option (Nat → PyDict α β → Except ε Unit)) :
    (mkConfig m ob lb p q la dk cb).download_kwargs = dk := rfl

/-- On a pure configuration whose first fetch succeeds and whose
submissions are all accepted, the run ends after one attempt in the
expected state — whatever the observer callback is. -/
theorem run_first_ok (w : FadWorld α ε) (m : Nat)
    (ob : Option (List α → List α)) (lb : Option Nat) (p q : Option (α → Bool))
    (la : Option Nat) (dk : PyDict α β)
    (cb : Option (Nat → PyDict α β → Except ε Unit))
    (items P : List α) (hP : purePipeline ob lb p q la items = P)
    (hf : w.fetch 1 = Except.ok items)
    (hsub : ∀ n, w.submit n = Except.ok ()) :
    fetch_and_download_run w (mkConfig m ob lb p q la dk cb) =
      Except.ok (1, fadExpected dk P) := by
  have hA : attempt w (mkConfig m ob lb p q la dk cb) 1 ⟨[], []⟩ =
      (none, fadExpected dk P) := by
    simp [attempt, hf, runPipeline_mkConfig, hP, mkConfig_download_kwargs,
      submitLoop_ok w (mkConfig m ob lb p q la dk cb) hsub, fadExpected]
  exact fadLoop_success w (mkConfig m ob lb p q la dk cb) hA (m - 1)

/-- The fan-out loop only ever appends to the futures accumulator. -/
theorem submitLoop_futures_mono (w : FadWorld α ε) (cfg : FadConfig α β ε) :
    ∀ (pairs : List (Nat × α)) (st : RunState α β),
      ∃ tail, (submitLoop w cfg pairs st).2.futures = st.futures ++ tail
  | [], st => ⟨[], by simp [submitLoop]⟩
  | (o, x) :: rest, st => by
    simp only [submitLoop]
    cases hsub : w.submit (st.submits ++
        [buildParams cfg.download_kwargs o x]).length with
    | error e => exact ⟨[], by simp⟩
    | ok u =>
      obtain ⟨tail, htail⟩ := submitLoop_futures_mono w cfg rest
        ⟨st.submits ++ [buildParams cfg.download_kwargs o x],
         st.futures ++ [(x, (st.submits ++ [buildParams cfg.download_kwargs o x]).length)]⟩
      exact ⟨(x, (st.submits ++ [buildParams cfg.download_kwargs o x]).length) :: tail,
        by simpa [List.append_assoc] using htail⟩

/-- An attempt only ever appends to the futures accumulator. -/
theorem attempt_futures_mono (w : FadWorld α ε) (cfg : FadConfig α β ε)
    (i : Nat) (st : RunState α β) :
    ∃ tail, (attempt w cfg i st).2.futures = st.futures ++ tail := by
  rcases hf : w.fetch i with e | items
  · exact ⟨[], by simp [attempt, hf]⟩
  · rcases hp : runPipeline cfg items with e | qs
    · exact ⟨[], by simp [attempt, hf, hp]⟩
    · have hmono := submitLoop_futures_mono w cfg (qsEnumerate 1 qs) st
      simpa [attempt, hf, hp] using hmono

/-- A run that ends in success returns a futures list extending
whatever was already accumulated when it started. -/
theorem fadLoop_futures_mono (w : FadWorld α ε) (cfg : FadConfig α β ε) :
    ∀ (r t : Nat) (st : RunState α β) (n : Nat) (stF : RunState α β),
      fadLoop w cfg t r st = Except.ok (n, stF) →
      ∃ tail, stF.futures = st.futures ++ tail
  | 0, t, st, n, stF => by
    intro h
    rcases hA : attempt w cfg (t + 1) st with ⟨o, st2⟩
    cases o with
    | none =>
      rw [fadLoop_success w cfg hA 0] at h
      obtain ⟨tail, htail⟩ := attempt_futures_mono w cfg (t + 1) st
      rw [hA] at htail
      injection h with h'
      have hst : st2 = stF := congrArg Prod.snd h'
      exact ⟨tail, hst ▸ htail⟩
    | some e =>
      rw [fadLoop_exhaust w cfg hA] at h
      exact absurd h (by simp)
  | r + 1, t, st, n, stF => by
    intro h
    rcases hA : attempt w cfg (t + 1) st with ⟨o, st2⟩
    cases o with
    | none =>
      rw [fadLoop_success w cfg hA (r + 1)] at h
      obtain ⟨tail, htail⟩ := attempt_futures_mono w cfg (t + 1) st
      rw [hA] at htail
      injection h with h'
      have hst : st2 = stF := congrArg Prod.snd h'
      exact ⟨tail, hst ▸ htail⟩
    | some e =>
      rw [fadLoop_step_fail w cfg hA r] at h
      obtain ⟨tail1, htail1⟩ := attempt_futures_mono w cfg (t + 1) st
      obtain ⟨tail2, htail2⟩ := fadLoop_futures_mono w cfg r (t + 1) st2 n stF h
      rw [hA] at htail1
      exact ⟨tail1 ++ tail2, by rw [htail2, htail1, List.append_assoc]⟩

/-- Witness for the amended C7 rendering at a concrete call. -/
theorem str_renders_name_witness :
    (∀ r ∈ ["1", "2"], r ≠ "") ∧
    FunctionCall.str ⟨"f", ["1", "2"], [("page", "3")]⟩ =
      "f" ++ "(" ++ String.intercalate ", "
        (["1", "2"] ++ [("page", "3")].map (fun kv => kv.1 ++ "=" ++ kv.2)) ++
      ")" :=
  ⟨by decide,
   str_renders_name_and_joined_arguments ⟨"f", ["1", "2"], [("page", "3")]⟩
     (by decide)⟩


/-- With no keyword arguments, `FunctionCall.__str__` renders the name
followed by the parenthesized join of the positional reprs (empty
parentheses included). -/
theorem str_no_kwargs (nm : String) (args : List String) :
    FunctionCall.str ⟨nm, args, []⟩ =
      nm ++ "(" ++ String.intercalate ", " args ++ ")" := by
  have h0 : String.intercalate ", "
      (List.map (fun kv => kv.1 ++ "=" ++ kv.2)
        ([] : List (String × String))) = "" := rfl
  simp only [FunctionCall.str, h0]
  by_cases hargs : String.intercalate ", " args = "" <;> simp [hargs]

/-- Claim C2: for a fetch source that fails on its first k invocations
and succeeds on invocation k+1 (pure pipeline stages, all downloads
accepted), the run with max_tries = k+1 completes successfully having
invoked the fetch source exactly k+1 times (the returned attempt
count), while the run with max_tries = k (for k ≥ 1) re-raises the
original failure, with the fetch call attached. -/
theorem retry_fail_k_then_succeed (k : Nat) (w : FadWorld α ε) (e : ε)
    (items : List α) (ob : Option (List α → List α)) (lb : Option Nat)
    (p q : Option (α → Bool)) (la : Option Nat) (dk : PyDict α β)
    (cb : Option (Nat → PyDict α β → Except ε Unit))
    (hfail : ∀ i, 1 ≤ i → i ≤ k → w.fetch i = Except.error e)
    (hsucc : w.fetch (k + 1) = Except.ok items)
    (hsub : ∀ n, w.submit n = Except.ok ()) :
    fetch_and_download_run w (mkConfig (k + 1) ob lb p q la dk cb) =
      Except.ok (k + 1, fadExpected dk (purePipeline ob lb p q la items)) ∧
    (1 ≤ k →
      fetch_and_download_run w (mkConfig k ob lb p q la dk cb) =
        Except.error ⟨e, w.fetchCall⟩) := by
  constructor
  · have hrun : fetch_and_download_run w (mkConfig (k + 1) ob lb p q la dk cb) =
        fadLoop w (mkConfig (k + 1) ob lb p q la dk cb) 0 k ⟨[], []⟩ := by
      simp [fetch_and_download_run, mkConfig]
    have h1 := fadLoop_failMany w (mkConfig (k + 1) ob lb p q la dk cb) e k 0 0
      ⟨[], []⟩ (fun i hi1 hi2 => hfail i (by omega) (by omega))
    rw [Nat.zero_add] at h1
    have hA : attempt w (mkConfig (k + 1) ob lb p q la dk cb) (k + 1) ⟨[], []⟩ =
        (none, fadExpected dk (purePipeline ob lb p q la items)) := by
      simp [attempt, hsucc, runPipeline_mkConfig, mkConfig_download_kwargs,
        submitLoop_ok w (mkConfig (k + 1) ob lb p q la dk cb) hsub, fadExpected]
    have h3 := fadLoop_success w (mkConfig (k + 1) ob lb p q la dk cb) hA 0
    exact hrun.trans (h1.trans h3)
  · intro hk1
    have hrun : fetch_and_download_run w (mkConfig k ob lb p q la dk cb) =
        fadLoop w (mkConfig k ob lb p q la dk cb) 0 (k - 1) ⟨[], []⟩ := by
      simp [fetch_and_download_run, mkConfig]
    have h1 := fadLoop_failMany w (mkConfig k ob lb p q la dk cb) e (k - 1) 0 0
      ⟨[], []⟩ (fun i hi1 hi2 => hfail i (by omega) (by omega))
    rw [Nat.zero_add] at h1
    have hx : k - 1 + 1 = k := by omega
    have hfe : w.fetch (k - 1 + 1) = Except.error e := by
      rw [hx]; exact hfail k hk1 (Nat.le_refl k)
    have h3 := fadLoop_exhaust w (mkConfig k ob lb p q la dk cb)
      (attempt_fetch_error w (mkConfig k ob lb p q la dk cb) hfe ⟨[], []⟩)
    exact hrun.trans (h1.trans h3)

/-- Witness for the retry behaviour at k = 2: with max_tries = 3 the
run succeeds on the third fetch invocation; with max_tries = 2 the
original failure is re-raised. -/
theorem retry_fail_k_then_succeed_witness :
    fetch_and_download_run wC2 cfgC2a = Except.ok (3, fadExpected [] [7]) ∧
    fetch_and_download_run wC2 cfgC2b = Except.error ⟨(), wC2.fetchCall⟩ := by
  have h := retry_fail_k_then_succeed 2 wC2 () [7] none none none none none
    ([] : PyDict Nat Unit) none (fun i h1 h2 => by simp [wC2, h2])
    (by simp [wC2]) (fun _ => rfl)
  exact ⟨h.1, h.2 (by omega)⟩

/-- Claim C3: when the fetch fails on every invocation, the run
raises the failure of its final attempt with the originating fetch
FunctionCall attached, and (for a call with no keyword arguments)
that attached call renders a description of the form
fetchFuncName(args...). -/
theorem exhaustion_attaches_fetch_call (w : FadWorld α ε) (cfg : FadConfig α β ε)
    (err : Nat → ε) (hfail : ∀ i, w.fetch i = Except.error (err i))
    (hkw : w.fetchCall.kwargReprs = []) :
    fetch_and_download_run w cfg =
      Except.error ⟨err (cfg.max_tries - 1 + 1), w.fetchCall⟩ ∧
    w.fetchCall.str = w.fetchCall.name ++ "(" ++
      String.intercalate ", " w.fetchCall.argReprs ++ ")" := by
  constructor
  · have h := fadLoop_allFail w cfg err hfail (cfg.max_tries - 1) 0 ⟨[], []⟩
    rw [Nat.zero_add] at h
    exact h
  · calc w.fetchCall.str
        = FunctionCall.str ⟨w.fetchCall.name, w.fetchCall.argReprs, []⟩ := by
          rw [← hkw]
      _ = w.fetchCall.name ++ "(" ++
            String.intercalate ", " w.fetchCall.argReprs ++ ")" :=
          str_no_kwargs w.fetchCall.name w.fetchCall.argReprs

/-- Witness for retry exhaustion: three attempts, the third failure
(value 3) raised with the fetch call attached, whose description is
fetch_user_illusts(123). -/
theorem exhaustion_attaches_fetch_call_witness :
    fetch_and_download_run wC3 cfgC3 = Except.error ⟨3, wC3.fetchCall⟩ ∧
    wC3.fetchCall.str = "fetch_user_illusts(123)" := by
  have h := exhaustion_attaches_fetch_call wC3 cfgC3 (fun i => i)
    (fun i => rfl) rfl
  exact ⟨h.1, h.2.trans (by decide)⟩

/-- Claim C4: if the pure pipeline yields the list P (of length N),
the run submits exactly N download jobs and returns after one attempt
a list of exactly N (item, future) pairs whose i-th item is the i-th
pipeline item. -/
theorem fan_out_counts (w : FadWorld α ε) (m : Nat)
    (ob : Option (List α → List α)) (lb : Option Nat) (p q : Option (α → Bool))
    (la : Option Nat) (dk : PyDict α β)
    (cb : Option (Nat → PyDict α β → Except ε Unit)) (items P : List α)
    (hP : purePipeline ob lb p q la items = P)
    (hf : w.fetch 1 = Except.ok items)
    (hsub : ∀ n, w.submit n = Except.ok ()) :
    fetch_and_download_run w (mkConfig m ob lb p q la dk cb) =
      Except.ok (1, fadExpected dk P) ∧
    (fadExpected dk P).submits.length = P.length ∧
    (fadExpected dk P).futures.length = P.length ∧
    (fadExpected dk P).futures.map Prod.fst = P :=
  ⟨run_first_ok w m ob lb p q la dk cb items P hP hf hsub,
   (fadExpected_spec dk P).1, (fadExpected_spec dk P).2.1,
   (fadExpected_spec dk P).2.2⟩

/-- Witness for the fan-out count at N = 2: three fetched items, a
filter keeping two. -/
theorem fan_out_counts_witness :
    fetch_and_download_run wC4 cfgC4 = Except.ok (1, fadExpected [] [6, 7]) ∧
    (fadExpected ([] : PyDict Nat Unit) [6, 7]).submits.length = 2 ∧
    (fadExpected ([] : PyDict Nat Unit) [6, 7]).futures.length = 2 ∧
    (fadExpected ([] : PyDict Nat Unit) [6, 7]).futures.map Prod.fst = [6, 7] := by
  have h := fan_out_counts wC4 5 none none (some pC4) none none
    ([] : PyDict Nat Unit) none [5, 6, 7] [6, 7] (by decide) rfl (fun _ => rfl)
  exact h

/-- The item is stored under the key illust in every constructed
parameter dict. -/
theorem buildParams_illust (dk : PyDict α β) (order : Nat) (x : α) :
    dictGet (buildParams dk order x) "illust" = some (DVal.illust x) := by
  have hne1 : ("addition_naming_info" : String) ≠ "illust" := by decide
  have hne2 : ("illust" : String) ≠ "addition_naming_info" := by decide
  have hani : dictGet (dictSet dk "illust" (DVal.illust x)) "addition_naming_info" =
      dictGet dk "addition_naming_info" :=
    dictGet_dictSet_other dk _ _ _ hne1
  simp only [buildParams, hani]
  cases hm : dictGet dk "addition_naming_info" with
  | none => rw [dictGet_dictSet_other _ _ _ _ hne2, dictGet_dictSet_same]
  | some v =>
    cases v with
    | pyNone => rw [dictGet_dictSet_other _ _ _ _ hne2, dictGet_dictSet_same]
    | illust y => exact dictGet_dictSet_same dk "illust" (DVal.illust x)
    | namingOrder o => exact dictGet_dictSet_same dk "illust" (DVal.illust x)
    | custom c => exact dictGet_dictSet_same dk "illust" (DVal.illust x)

/-- The default naming hint holding the order is injected when the
caller supplied no naming hint (key absent or None). -/
theorem buildParams_naming_injected (dk : PyDict α β) (order : Nat) (x : α)
    (h : dictGet dk "addition_naming_info" = none ∨
         dictGet dk "addition_naming_info" = some DVal.pyNone) :
    dictGet (buildParams dk order x) "addition_naming_info" =
      some (DVal.namingOrder order) := by
  have hne1 : ("addition_naming_info" : String) ≠ "illust" := by decide
  have hani : dictGet (dictSet dk "illust" (DVal.illust x)) "addition_naming_info" =
      dictGet dk "addition_naming_info" :=
    dictGet_dictSet_other dk _ _ _ hne1
  simp only [buildParams, hani]
  rcases h with h | h <;> rw [h] <;> exact dictGet_dictSet_same _ _ _

/-- A caller-supplied naming hint other than None is preserved
untouched. -/
theorem buildParams_naming_preserved (dk : PyDict α β) (order : Nat) (x : α)
    (v : DVal α β) (hv : dictGet dk "addition_naming_info" = some v)
    (hne : v ≠ DVal.pyNone) :
    dictGet (buildParams dk order x) "addition_naming_info" = some v := by
  have hne1 : ("addition_naming_info" : String) ≠ "illust" := by decide
  have hani : dictGet (dictSet dk "illust" (DVal.illust x)) "addition_naming_info" =
      dictGet dk "addition_naming_info" :=
    dictGet_dictSet_other dk _ _ _ hne1
  simp only [buildParams, hani]
  rw [hv]
  cases v with
  | pyNone => exact absurd rfl hne
  | illust y => exact hani.trans hv
  | namingOrder o => exact hani.trans hv
  | custom c => exact hani.trans hv

/-- Every other caller-supplied key is copied through unchanged. -/
theorem buildParams_other_keys (dk : PyDict α β) (order : Nat) (x : α)
    (k' : String) (h1 : k' ≠ "illust") (h2 : k' ≠ "addition_naming_info") :
    dictGet (buildParams dk order x) k' = dictGet dk k' := by
  have hne1 : ("addition_naming_info" : String) ≠ "illust" := by decide
  have hani : dictGet (dictSet dk "illust" (DVal.illust x)) "addition_naming_info" =
      dictGet dk "addition_naming_info" :=
    dictGet_dictSet_other dk _ _ _ hne1
  have hc : dictGet (dictSet dk "illust" (DVal.illust x)) k' = dictGet dk k' :=
    dictGet_dictSet_other dk _ _ _ h1
  simp only [buildParams, hani]
  cases hm : dictGet dk "addition_naming_info" with
  | none => rw [dictGet_dictSet_other _ _ _ _ h2]; exact hc
  | some v =>
    cases v with
    | pyNone => rw [dictGet_dictSet_other _ _ _ _ h2]; exact hc
    | illust y => exact hc
    | namingOrder o => exact hc
    | custom c => exact hc

/-- Claim C6: every submitted download job's parameters are built from
the caller's original keyword arguments (never from a previous
iteration's copy): the item is injected under illust, the default
naming hint holding the order is injected exactly when the caller
supplied no naming hint (absent or None), a caller-supplied non-None
naming hint is preserved, and every other caller key is copied
through unchanged. -/
theorem download_params_construction (w : FadWorld α ε) (m : Nat)
    (ob : Option (List α → List α)) (lb : Option Nat) (p q : Option (α → Bool))
    (la : Option Nat) (dk : PyDict α β)
    (cb : Option (Nat → PyDict α β → Except ε Unit)) (items P : List α)
    (hP : purePipeline ob lb p q la items = P)
    (hf : w.fetch 1 = Except.ok items)
    (hsub : ∀ n, w.submit n = Except.ok ()) :
    fetch_and_download_run w (mkConfig m ob lb p q la dk cb) =
      Except.ok (1, fadExpected dk P) ∧
    (fadExpected dk P).submits =
      (qsEnumerate 1 P).map (fun oi => buildParams dk oi.1 oi.2) ∧
    (∀ (order : Nat) (x : α),
      dictGet (buildParams dk order x) "illust" = some (DVal.illust x)) ∧
    (∀ (order : Nat) (x : α),
      (dictGet dk "addition_naming_info" = none ∨
       dictGet dk "addition_naming_info" = some DVal.pyNone) →
      dictGet (buildParams dk order x) "addition_naming_info" =
        some (DVal.namingOrder order)) ∧
    (∀ (order : Nat) (x : α) (v : DVal α β),
      dictGet dk "addition_naming_info" = some v → v ≠ DVal.pyNone →
      dictGet (buildParams dk order x) "addition_naming_info" = some v) ∧
    (∀ (order : Nat) (x : α) (k' : String),
      k' ≠ "illust" → k' ≠ "addition_naming_info" →
      dictGet (buildParams dk order x) k' = dictGet dk k') :=
  ⟨run_first_ok w m ob lb p q la dk cb items P hP hf hsub,
   rfl,
   fun order x => buildParams_illust dk order x,
   fun order x h => buildParams_naming_injected dk order x h,
   fun order x v hv hne => buildParams_naming_preserved dk order x v hv hne,
   fun order x k' h1 h2 => buildParams_other_keys dk order x k' h1 h2⟩

/-- Witness for the parameter construction on a dict holding one
unrelated caller key. -/
theorem download_params_construction_witness :
    fetch_and_download_run wC6 (mkConfig 1 none none none none none dkC6 none) =
      Except.ok (1, fadExpected dkC6 [11, 12]) ∧
    dictGet (buildParams dkC6 1 11) "illust" = some (DVal.illust 11) ∧
    dictGet (buildParams dkC6 1 11) "addition_naming_info" =
      some (DVal.namingOrder 1) ∧
    dictGet (buildParams dkC6 1 11) "quality" = some (DVal.custom 9) := by
  have h := download_params_construction wC6 1 none none none none none dkC6
    none [11, 12] [11, 12] rfl rfl (fun _ => rfl)
  exact ⟨h.1, h.2.2.1 1 11, h.2.2.2.1 1 11 (Or.inl (by decide)),
    (h.2.2.2.2.2 1 11 "quality" (by decide) (by decide)).trans (by decide)⟩

/-- Claim C8: a submission-observer callback that raises on every
invocation changes nothing: the run equals the run without any
callback, still submits one download per pipeline item and returns
normally. -/
theorem observer_failure_swallowed (w : FadWorld α ε) (m : Nat)
    (ob : Option (List α → List α)) (lb : Option Nat) (p q : Option (α → Bool))
    (la : Option Nat) (dk : PyDict α β)
    (cb : Nat → PyDict α β → Except ε Unit) (ecb : Nat → PyDict α β → ε)
    (_hcb : ∀ f pr, cb f pr = Except.error (ecb f pr))
    (items P : List α) (hP : purePipeline ob lb p q la items = P)
    (hf : w.fetch 1 = Except.ok items)
    (hsub : ∀ n, w.submit n = Except.ok ()) :
    fetch_and_download_run w (mkConfig m ob lb p q la dk (some cb)) =
      fetch_and_download_run w (mkConfig m ob lb p q la dk none) ∧
    fetch_and_download_run w (mkConfig m ob lb p q la dk (some cb)) =
      Except.ok (1, fadExpected dk P) ∧
    (fadExpected dk P).submits.length = P.length ∧
    (fadExpected dk P).futures.length = P.length :=
  ⟨(run_first_ok w m ob lb p q la dk (some cb) items P hP hf hsub).trans
     (run_first_ok w m ob lb p q la dk none items P hP hf hsub).symm,
   run_first_ok w m ob lb p q la dk (some cb) items P hP hf hsub,
   (fadExpected_spec dk P).1, (fadExpected_spec dk P).2.1⟩

/-- Witness for the raising observer callback on three items. -/
theorem observer_failure_swallowed_witness :
    fetch_and_download_run wC8 (mkConfig 3 none none none none none []
      (some cbC8)) =
      fetch_and_download_run wC8 (mkConfig 3 none none none none none [] none) ∧
    fetch_and_download_run wC8 (mkConfig 3 none none none none none []
      (some cbC8)) = Except.ok (1, fadExpected [] [1, 2, 3]) ∧
    (fadExpected ([] : PyDict Nat Nat) [1, 2, 3]).submits.length = 3 ∧
    (fadExpected ([] : PyDict Nat Nat) [1, 2, 3]).futures.length = 3 :=
  observer_failure_swallowed wC8 3 none none none none none [] cbC8
    (fun _ _ => 99) (fun _ _ => rfl) [1, 2, 3] [1, 2, 3] rfl rfl
    (fun _ => rfl)

/-- Claim C9: the futures accumulator is created once, outside the
retry loop — if an attempt fails after appending some pairs and the
loop then succeeds from the state the failure left behind, the run
succeeds with a futures list that still carries everything the failed
attempt appended (the final list extends the failed attempt's
accumulated list). -/
theorem accumulator_persists_across_attempts (w : FadWorld α ε)
    (cfg : FadConfig α β ε) (t r : Nat) (st st1 : RunState α β) (e : ε)
    (n : Nat) (stF : RunState α β)
    (hfailA : attempt w cfg (t + 1) st = (some e, st1))
    (hrest : fadLoop w cfg (t + 1) r st1 = Except.ok (n, stF)) :
    fadLoop w cfg t (r + 1) st = Except.ok (n, stF) ∧
    ∃ tail, stF.futures = st1.futures ++ tail :=
  ⟨(fadLoop_step_fail w cfg hfailA r).trans hrest,
   fadLoop_futures_mono w cfg r (t + 1) st1 n stF hrest⟩

/-- Witness for the accumulator persistence: the second submission of
the first attempt fails after one pair was appended; the retry
succeeds and the returned list starts with the stale pair. -/
theorem accumulator_persists_witness :
    fadLoop wC9 cfgC9 0 1 ⟨[], []⟩ = Except.ok (2, stFC9) ∧
    ∃ tail, stFC9.futures = st1C9.futures ++ tail := by
  have h := accumulator_persists_across_attempts wC9 cfgC9 0 0 ⟨[], []⟩ st1C9
    () 2 stFC9 (by decide) (by decide)
  exact h

/-- Claim C10: the retry loop catches every failure of an attempt —
whatever stage raised it — and either continues the loop on the state
the attempt left (when retries remain) or, on exhaustion, re-raises
exactly that failure with the originating fetch FunctionCall
attached, even when the failure did not come from the fetch call. -/
theorem retry_catches_all_attempt_failures (w : FadWorld α ε)
    (cfg : FadConfig α β ε) (t r : Nat) (st st1 : RunState α β) (e : ε)
    (hfailA : attempt w cfg (t + 1) st = (some e, st1)) :
    fadLoop w cfg t (r + 1) st = fadLoop w cfg (t + 1) r st1 ∧
    fadLoop w cfg t 0 st = Except.error ⟨e, w.fetchCall⟩ :=
  ⟨fadLoop_step_fail w cfg hfailA r, fadLoop_exhaust w cfg hfailA⟩

/-- Witness for the catch-all retry: the failure comes from a raising
filter predicate, not from the fetch, yet it is retried and on
exhaustion attached to the fetch call. -/
theorem retry_catches_all_witness :
    fadLoop wC10 cfgC10 0 1 ⟨[], []⟩ = fadLoop wC10 cfgC10 1 0 ⟨[], []⟩ ∧
    fadLoop wC10 cfgC10 0 0 ⟨[], []⟩ = Except.error ⟨5, wC10.fetchCall⟩ := by
  have h := retry_catches_all_attempt_failures wC10 cfgC10 0 0 ⟨[], []⟩
    ⟨[], []⟩ 5 (by decide)
  exact h


end PixivPixie
